import Mathlib

/-
  Verification development for the `mtuq` seismic moment-tensor inversion
  package.  The Python source under `mtuq/` is shallowly embedded below:

  * `mtuq/dataset.py`    — the `Dataset` container (a Python list subclass of
    ObsPy streams) with `append`, `select`, `apply`/`map`, `max`,
    `sort_by_distance`, `tag_add`, ...
  * `mtuq/graphics/uq/depth.py` (and the identical helpers in
    `mtuq/graphics/uq/origin.py`) — the score-surface reductions
    `_min_dataarray` / `_max_dataarray` and the likelihood transform of
    `plot_likelihood_depth`.

  Modelling conventions:
  * Machine floats are modelled by ℚ (exact data values) or ℝ (where `exp`
    is needed); `-np.inf` is the bottom element of `WithBot ℚ`.
  * Python exceptions are an explicit error type `PyErr`, and fallible
    operations return `Except PyErr _`.  An attribute that may be absent is
    an `Option` field, and reading an absent attribute is an
    `attributeError`.
  * The repository runs under Python 2 (its test scripts and examples use
    `print` statements, which are Python-2-only syntax), so the name
    `unicode` in `Dataset.tag_add` is a defined builtin type.
  * `obspy.geodetics.gps2dist_azimuth` is an external geodesy routine; the
    embeddings are parametrised by an arbitrary function
    `g : ℚ → ℚ → ℚ → ℚ → ℚ × ℚ` standing for its (distance, azimuth) result.
-/

deriving instance DecidableEq for Except

namespace Mtuq

/-- Python exception classes that the embedded code can raise.  `exception`
is the bare `Exception` class (as in `raise Exception(...)`). -/
inductive PyErr where
  | typeError
  | valueError
  | assertionError
  | indexError
  | attributeError
  | exception
  | notImplementedError
deriving DecidableEq, Repr

/-- Per-trace header metadata (`trace.stats`): the network/station/location
codes used by `Dataset.append` as an identifier fallback. -/
structure TraceStats where
  network : String
  station : String
  location : String
deriving DecidableEq, Repr

/-- One component trace of a stream: its header, its optional `weight`
attribute (`getattr(trace, 'weight', 1.)` defaults to 1 when absent) and its
sample array `data`. -/
structure PyTrace where
  stats : TraceStats
  weight : Option ℚ
  data : List ℚ
deriving DecidableEq, Repr

/-- Station metadata attached by readers: identification codes plus
coordinates (only the fields the embedded code reads). -/
structure Station where
  network : String
  station : String
  location : String
  latitude : ℚ
  longitude : ℚ
deriving DecidableEq, Repr

/-- Origin (event hypocenter) metadata (only the fields the embedded code
reads). -/
structure Origin where
  latitude : ℚ
  longitude : ℚ
  depth_in_m : ℚ
deriving DecidableEq, Repr

/-- An ObsPy `Stream` as `mtuq.dataset` uses it: a list of traces plus the
dynamically attached attributes.  `station`, `origin`, `id`, `tags`,
`distance_in_m` and `azimuth` may each be absent (`none`). -/
structure PyStream where
  traces : List PyTrace
  station : Option Station
  origin : Option Origin
  id : Option String
  tags : Option (List String)
  distance_in_m : Option ℚ
  azimuth : Option ℚ
deriving DecidableEq, Repr

instance : Inhabited PyStream := ⟨⟨[], none, none, none, none, none, none⟩⟩

/-- A `Dataset`: a list of streams carrying its own optional identifier
(`self.id`). -/
structure PyDataset where
  id : Option String
  streams : List PyStream
deriving DecidableEq, Repr

/-- Python's `'.'.join([network, station, location])`. -/
def joinId (a b c : String) : String := a ++ "." ++ b ++ "." ++ c

/-- The per-stream work of `Dataset.append` (dataset.py lines 44-68): compute
the unique identifier (from `stream.station`, falling back to
`stream[0].stats` — an `IndexError` escapes the bare `except:` when the
stream is empty), default `tags` to `[]` when absent, and attach
`distance_in_m`/`azimuth` via the geodesy routine `g` when both station and
origin metadata are present (otherwise only a warning is emitted). -/
def normStream (g : ℚ → ℚ → ℚ → ℚ → ℚ × ℚ) (s : PyStream) :
    Except PyErr PyStream :=
  match
      (match s.station with
        | some st => Except.ok (joinId st.network st.station st.location)
        | none =>
          match s.traces with
          | [] => Except.error PyErr.indexError
          | t :: _ =>
            Except.ok (joinId t.stats.network t.stats.station
              t.stats.location)) with
  | Except.error e => Except.error e
  | Except.ok ident =>
    let tags := s.tags.getD []
    match s.station, s.origin with
    | some st, some o =>
      let da := g o.latitude o.longitude st.latitude st.longitude
      Except.ok { s with
        id := some ident
        tags := some tags
        distance_in_m := some da.1
        azimuth := some da.2 }
    | _, _ =>
      Except.ok { s with id := some ident, tags := some tags }

/-- Embeds `Dataset.append(stream)` for a genuine `Stream` argument: normalise the
stream and append it (`list.append`). -/
def appendStream (g : ℚ → ℚ → ℚ → ℚ → ℚ × ℚ) (ds : PyDataset)
    (s : PyStream) : Except PyErr PyDataset :=
  match normStream g s with
  | Except.error e => Except.error e
  | Except.ok t => Except.ok { ds with streams := ds.streams ++ [t] }

/-- An arbitrary Python object passed to `Dataset.append`: either a `Stream`
(subclass) instance or anything else. -/
inductive PyObj where
  | stream (s : PyStream)
  | notStream
deriving DecidableEq, Repr

/-- Embeds `Dataset.append` including its guard
`assert issubclass(type(stream), Stream), ValueError(...)`: a non-`Stream`
argument fails the `assert` statement, which raises `AssertionError` (the
`ValueError(...)` is merely the assertion message), before the dataset is
touched. -/
def appendObj (g : ℚ → ℚ → ℚ → ℚ → ℚ × ℚ) (ds : PyDataset) (x : PyObj) :
    Except PyErr PyDataset :=
  match x with
  | PyObj.notStream => Except.error PyErr.assertionError
  | PyObj.stream s => appendStream g ds s

/-- The `Dataset` constructor body applied to a stream list: `self.append`
run on each given stream in order. -/
def mkStreams (g : ℚ → ℚ → ℚ → ℚ → ℚ × ℚ) :
    List PyStream → Except PyErr (List PyStream)
  | [] => Except.ok []
  | s :: ss =>
    match normStream g s with
    | Except.error e => Except.error e
    | Except.ok t =>
      match mkStreams g ss with
      | Except.error e => Except.error e
      | Except.ok ts => Except.ok (t :: ts)

/-- Embeds the constructor call `Dataset(streams=..., id=..., tags=[])`: the constructor used by
`select`, `apply` and `map` to build the returned dataset. -/
def mkDataset (g : ℚ → ℚ → ℚ → ℚ → ℚ × ℚ) (i : Option String)
    (streams : List PyStream) : Except PyErr PyDataset :=
  match mkStreams g streams with
  | Except.error e => Except.error e
  | Except.ok ts => Except.ok { id := i, streams := ts }

/-- Python attribute read `stream.station`: `AttributeError` when absent. -/
def getStationAttr (s : PyStream) : Except PyErr Station :=
  match s.station with
  | some st => Except.ok st
  | none => Except.error PyErr.attributeError

/-- Python attribute read `stream.origin`: `AttributeError` when absent. -/
def getOriginAttr (s : PyStream) : Except PyErr Origin :=
  match s.origin with
  | some o => Except.ok o
  | none => Except.error PyErr.attributeError

/-- The filter predicate of `Dataset.select` when both criteria are given:
`stream.station==station and stream.origin==origin`, with Python's
short-circuit `and` (the origin attribute is only read when the station
matches). -/
def selPredBoth (o : Origin) (st : Station) (s : PyStream) :
    Except PyErr Bool :=
  match getStationAttr s with
  | Except.error e => Except.error e
  | Except.ok a =>
    if a = st then
      match getOriginAttr s with
      | Except.error e => Except.error e
      | Except.ok b => Except.ok (decide (b = o))
    else
      Except.ok false

/-- Embeds `stream.station==station` as a fallible predicate. -/
def selPredStation (st : Station) (s : PyStream) : Except PyErr Bool :=
  match getStationAttr s with
  | Except.error e => Except.error e
  | Except.ok a => Except.ok (decide (a = st))

/-- Embeds `stream.origin==origin` as a fallible predicate. -/
def selPredOrigin (o : Origin) (s : PyStream) : Except PyErr Bool :=
  match getOriginAttr s with
  | Except.error e => Except.error e
  | Except.ok b => Except.ok (decide (b = o))

/-- Python's `filter` over a fallible predicate, preserving order. -/
def filterE (p : PyStream → Except PyErr Bool) :
    List PyStream → Except PyErr (List PyStream)
  | [] => Except.ok []
  | s :: ss =>
    match p s with
    | Except.error e => Except.error e
    | Except.ok b =>
      match filterE p ss with
      | Except.error e => Except.error e
      | Except.ok ts => Except.ok (if b then s :: ts else ts)

/-- Embeds `Dataset.select(origin=?, station=?)` (dataset.py lines 73-91): filter by
equality on the given criteria and rebuild a dataset with the same `id`
through the constructor; with neither criterion it raises the bare
`Exception` (`raise Exception("No selection criteria given ...")`).
Supplied criteria objects are modelled as truthy. -/
def selectDS (g : ℚ → ℚ → ℚ → ℚ → ℚ × ℚ) (ds : PyDataset)
    (origin : Option Origin) (station : Option Station) :
    Except PyErr PyDataset :=
  match origin, station with
  | some o, some st =>
    match filterE (selPredBoth o st) ds.streams with
    | Except.error e => Except.error e
    | Except.ok l => mkDataset g ds.id l
  | none, some st =>
    match filterE (selPredStation st) ds.streams with
    | Except.error e => Except.error e
    | Except.ok l => mkDataset g ds.id l
  | some o, none =>
    match filterE (selPredOrigin o) ds.streams with
    | Except.error e => Except.error e
    | Except.ok l => mkDataset g ds.id l
  | none, none => Except.error PyErr.exception

/-- Python sequence indexing `sequence[_i]`: `IndexError` past the end. -/
def seqGet {α : Type} (l : List α) (i : ℕ) : Except PyErr α :=
  match l.get? i with
  | some a => Except.ok a
  | none => Except.error PyErr.indexError

/-- Embeds `args = [sequence[_i] for sequence in sequences]` in `Dataset.map`. -/
def argsAt {α : Type} (i : ℕ) :
    List (List α) → Except PyErr (List α)
  | [] => Except.ok []
  | l :: ls =>
    match seqGet l i with
    | Except.error e => Except.error e
    | Except.ok a =>
      match argsAt i ls with
      | Except.error e => Except.error e
      | Except.ok as => Except.ok (a :: as)

/-- The accumulation loop of `Dataset.map`:
`processed += [function(stream, *args)]` for each enumerated stream,
starting at index `i`. -/
def mapLoop {α : Type} (f : PyStream → List α → PyStream)
    (seqs : List (List α)) : ℕ → List PyStream →
    Except PyErr (List PyStream)
  | _, [] => Except.ok []
  | i, s :: ss =>
    match argsAt i seqs with
    | Except.error e => Except.error e
    | Except.ok args =>
      match mapLoop f seqs (i + 1) ss with
      | Except.error e => Except.error e
      | Except.ok rest => Except.ok (f s args :: rest)

/-- Embeds `Dataset.map(function, *sequences)` (dataset.py lines 118-142): build the
`processed` list then return `self.__class__(processed, id=self.id)`. -/
def mapDS {α : Type} (g : ℚ → ℚ → ℚ → ℚ → ℚ × ℚ)
    (f : PyStream → List α → PyStream) (seqs : List (List α))
    (ds : PyDataset) : Except PyErr PyDataset :=
  match mapLoop f seqs 0 ds.streams with
  | Except.error e => Except.error e
  | Except.ok processed => mkDataset g ds.id processed

/-- Embeds `np.max` of a nonempty sample list (`x` first sample, `xs` the rest). -/
def listMaxQ (x : ℚ) (xs : List ℚ) : ℚ := xs.foldl max x

/-- One step of the `Dataset.max` loop body (dataset.py lines 149-154) for a
single trace: skip the trace when `getattr(trace, 'weight', 1.)` is falsy;
otherwise compare the signed `trace.data.max()` against the accumulator and,
when it is larger, replace the accumulator by `abs(trace.data).max()`.
`np.max` of an empty array raises `ValueError`. -/
def traceMaxStep (acc : WithBot ℚ) (t : PyTrace) :
    Except PyErr (WithBot ℚ) :=
  if t.weight.getD 1 = 0 then Except.ok acc
  else
    match t.data with
    | [] => Except.error PyErr.valueError
    | x :: xs =>
      if acc < ((listMaxQ x xs : ℚ) : WithBot ℚ) then
        Except.ok ((listMaxQ |x| (xs.map (fun q => |q|)) : ℚ) : WithBot ℚ)
      else
        Except.ok acc

/-- The inner `for trace in stream` loop of `Dataset.max`. -/
def tracesMax (acc : WithBot ℚ) : List PyTrace → Except PyErr (WithBot ℚ)
  | [] => Except.ok acc
  | t :: ts =>
    match traceMaxStep acc t with
    | Except.error e => Except.error e
    | Except.ok acc2 => tracesMax acc2 ts

/-- The outer `for stream in self` loop of `Dataset.max`. -/
def streamsMax (acc : WithBot ℚ) : List PyStream → Except PyErr (WithBot ℚ)
  | [] => Except.ok acc
  | s :: ss =>
    match tracesMax acc s.traces with
    | Except.error e => Except.error e
    | Except.ok acc2 => streamsMax acc2 ss

/-- Embeds `Dataset.max()` (dataset.py lines 145-155): the accumulator starts at
`-np.inf` (the bottom of `WithBot ℚ`). -/
def datasetMax (ds : PyDataset) : Except PyErr (WithBot ℚ) :=
  streamsMax ⊥ ds.streams

/-- Follows the spec's words (§4.1 `max()`): the maximum absolute sample
amplitude across all records/components, skipping any component whose weight
is falsy, `-infinity` for an empty Dataset.  Used to compare the source's
`Dataset.max` against its stated contract. -/
def maxAbsSpec (ds : PyDataset) : WithBot ℚ :=
  ds.streams.foldl
    (fun acc s => s.traces.foldl
      (fun acc2 t =>
        if t.weight.getD 1 = 0 then acc2
        else t.data.foldl (fun a q => max a ((|q| : ℚ) : WithBot ℚ)) acc2)
      acc)
    ⊥

/-- Stable insertion into a sorted list: `x` goes before the first element
`y` with `le x y` (so among elements comparing equal, earlier-inserted —
i.e. originally earlier — elements stay first). -/
def insertLe {α : Type} (le : α → α → Bool) (x : α) : List α → List α
  | [] => [x]
  | y :: ys => if le x y then x :: y :: ys else y :: insertLe le x ys

/-- Stable insertion sort.  Python's `list.sort` (Timsort) is a stable sort
with respect to the key order, and a stable sort's output is uniquely
determined by the order and the input sequence, so this is an exact model of
`list.sort(key=..., reverse=...)` on total keys. -/
def isort {α : Type} (le : α → α → Bool) : List α → List α
  | [] => []
  | x :: xs => insertLe le x (isort le xs)

/-- The sort key of `Dataset.sort_by_distance`:
`lambda data: data.distance_in_m` (only ever applied to streams whose
`distance_in_m` attribute is present). -/
def distKey (s : PyStream) : ℚ := s.distance_in_m.getD 0

/-- Ascending comparison on the distance key (`reverse=False`). -/
def distLe (a b : PyStream) : Bool := decide (distKey a ≤ distKey b)

/-- Descending comparison on the distance key (`reverse=True`; stability is
with respect to the original order, as for CPython's `reverse=True`). -/
def distGe (a b : PyStream) : Bool := decide (distKey b ≤ distKey a)

/-- Embeds `Dataset.sort_by_distance(reverse=...)` (dataset.py lines 158-162, via
`sort_by_function`): an in-place stable sort keyed on
`stream.distance_in_m`; reading that attribute on a stream that lacks it
raises `AttributeError`. -/
def sortByDistance (ds : PyDataset) (reverse : Bool) :
    Except PyErr PyDataset :=
  if ds.streams.all (fun s => s.distance_in_m.isSome) then
    Except.ok { ds with
      streams := isort (if reverse then distGe else distLe) ds.streams }
  else
    Except.error PyErr.attributeError

/-- A Python value passed to `Dataset.tag_add`: a string (`str` or
`unicode`, both string types under Python 2) or a non-string value. -/
inductive PyVal where
  | str (s : String)
  | int (n : ℤ)
deriving DecidableEq, Repr

/-- The per-stream body of `Dataset.tag_add`:
`if tag not in stream.tags: stream.tags.append(tag)`; reading `stream.tags`
on a stream lacking the attribute raises `AttributeError`. -/
def tagAddStream (t : String) (s : PyStream) : Except PyErr PyStream :=
  match s.tags with
  | none => Except.error PyErr.attributeError
  | some tg =>
    if t ∈ tg then Except.ok s
    else Except.ok { s with tags := some (tg ++ [t]) }

/-- The `for stream in self` loop of `Dataset.tag_add`. -/
def tagAddStreams (t : String) :
    List PyStream → Except PyErr (List PyStream)
  | [] => Except.ok []
  | s :: ss =>
    match tagAddStream t s with
    | Except.error e => Except.error e
    | Except.ok s2 =>
      match tagAddStreams t ss with
      | Except.error e => Except.error e
      | Except.ok ss2 => Except.ok (s2 :: ss2)

/-- Embeds `Dataset.tag_add(tag)` (dataset.py lines 217-228):
`if type(tag) not in [str, unicode]: raise TypeError` (under Python 2 both
string types pass), then append the tag to each stream's tag list unless
already present. -/
def tagAdd (ds : PyDataset) (tag : PyVal) : Except PyErr PyDataset :=
  match tag with
  | PyVal.int _ => Except.error PyErr.typeError
  | PyVal.str t =>
    match tagAddStreams t ds.streams with
    | Except.error e => Except.error e
    | Except.ok ss => Except.ok { ds with streams := ss }

/-- An `xarray.DataArray` / `numpy.ndarray` of rationals: a shape (one entry
per axis) and a value function on multi-indices (row-major, first index
outermost; values outside the valid index box are irrelevant junk). -/
structure NDArray where
  shape : List ℕ
  val : List ℕ → ℚ

/-- All multi-indices of a shape, enumerated in C (row-major) order: the
last index varies fastest, matching numpy's flattened iteration order. -/
def indicesOf : List ℕ → List (List ℕ)
  | [] => [[]]
  | n :: rest =>
    ((List.range n).map
      (fun i => (indicesOf rest).map (fun t => i :: t))).flatten

/-- The flattened (C-order) sequence of array elements. -/
def flattenND (A : NDArray) : List ℚ := (indicesOf A.shape).map A.val

/-- Index of the first occurrence of `q` in a list (0 when absent): the
contract of `np.argmin`/`np.argmax` applied to the extremal value. -/
def firstIdxOf (q : ℚ) : List ℚ → ℕ
  | [] => 0
  | y :: ys => if y = q then 0 else firstIdxOf q ys + 1

/-- Embeds `np.min` of a nonempty sample list. -/
def listMinQ (x : ℚ) (xs : List ℚ) : ℚ := xs.foldl min x

/-- Embeds `sliced.min()` and `int(sliced.argmin())` together: numpy's minimum over
the flattened array with the flat index of its first occurrence;
`ValueError` on an empty array. -/
def arrMinPair (A : NDArray) : Except PyErr (ℚ × ℕ) :=
  match flattenND A with
  | [] => Except.error PyErr.valueError
  | x :: xs => Except.ok (listMinQ x xs, firstIdxOf (listMinQ x xs) (x :: xs))

/-- Embeds `sliced.max()` and `int(sliced.argmax())`, as for `arrMinPair`. -/
def arrMaxPair (A : NDArray) : Except PyErr (ℚ × ℕ) :=
  match flattenND A with
  | [] => Except.error PyErr.valueError
  | x :: xs => Except.ok (listMaxQ x xs, firstIdxOf (listMaxQ x xs) (x :: xs))

/-- The basic-indexing expression `ds[:,:,:,:,:,:,_i]` of
`_min_dataarray`/`_max_dataarray`: seven indexers (six full slices plus an
integer on axis 6).  More indexers than axes is an `IndexError` ("too many
indices"); on an array of at least 7 axes the integer consumes axis 6
(bounds-checked), leaving the surrounding axes. -/
def sliceAx6 (A : NDArray) (i : ℕ) : Except PyErr NDArray :=
  if A.shape.length < 7 then Except.error PyErr.indexError
  else if i < A.shape.getD 6 0 then
    Except.ok ⟨A.shape.take 6 ++ A.shape.drop 7,
      fun idx => A.val (idx.take 6 ++ i :: idx.drop 6)⟩
  else Except.error PyErr.indexError

/-- Accumulate the `(values, indices)` pairs of the reduction loop,
stopping at the first raised exception. -/
def exMapP (f : ℕ → Except PyErr (ℚ × ℕ)) :
    List ℕ → Except PyErr (List (ℚ × ℕ))
  | [] => Except.ok []
  | i :: is =>
    match f i with
    | Except.error e => Except.error e
    | Except.ok p =>
      match exMapP f is with
      | Except.error e => Except.error e
      | Except.ok ps => Except.ok (p :: ps)

/-- Embeds `_min_dataarray(ds)` (graphics/uq/depth.py lines 201-207 and
graphics/uq/origin.py lines 250-256): for `_i in range(ds.shape[-1])`
(`ds.shape[-1]` on a 0-axis array is an `IndexError`), slice
`ds[:,:,:,:,:,:,_i]` and record `sliced.min()` and `int(sliced.argmin())`. -/
def minDataarray (A : NDArray) : Except PyErr (List (ℚ × ℕ)) :=
  match A.shape.getLast? with
  | none => Except.error PyErr.indexError
  | some n =>
    exMapP
      (fun i =>
        match sliceAx6 A i with
        | Except.error e => Except.error e
        | Except.ok s => arrMinPair s)
      (List.range n)

/-- Embeds `_max_dataarray(ds)`, identical to `minDataarray` with `max`/`argmax`. -/
def maxDataarray (A : NDArray) : Except PyErr (List (ℚ × ℕ)) :=
  match A.shape.getLast? with
  | none => Except.error PyErr.indexError
  | some n =>
    exMapP
      (fun i =>
        match sliceAx6 A i with
        | Except.error e => Except.error e
        | Except.ok s => arrMaxPair s)
      (List.range n)

/-- The values of the slice of a 7-axis surface at position `i` of the
held-out last axis, enumerated over all remaining axes in row-major order
(the spec's "the slice over all remaining axes"). -/
def specSliceVals (A : NDArray) (i : ℕ) : List ℚ :=
  (indicesOf (A.shape.take 6)).map (fun j => A.val (j ++ [i]))

/-- Minimum of a list (junk 0 on the empty list, which the spec-side
projection never reaches for a nonempty surface). -/
def minOfList : List ℚ → ℚ
  | [] => 0
  | x :: xs => listMinQ x xs

/-- Maximum of a list (junk 0 on the empty list). -/
def maxOfList : List ℚ → ℚ
  | [] => 0
  | x :: xs => listMaxQ x xs

/-- Follows the spec's words (§4.4 `min` projection): for each value `i`
along the held-out last axis, the minimum of the slice over all remaining
axes, paired with the flat index of its first occurrence in that slice. -/
def minProjSpec (A : NDArray) : List (ℚ × ℕ) :=
  (List.range (A.shape.getLast?.getD 0)).map (fun i =>
    (minOfList (specSliceVals A i),
      firstIdxOf (minOfList (specSliceVals A i)) (specSliceVals A i)))

/-- Follows the spec's words (§4.4 `max` projection): as `minProjSpec` with
maximum and argmax. -/
def maxProjSpec (A : NDArray) : List (ℚ × ℕ) :=
  (List.range (A.shape.getLast?.getD 0)).map (fun i =>
    (maxOfList (specSliceVals A i),
      firstIdxOf (maxOfList (specSliceVals A i)) (specSliceVals A i)))

/-- The pointwise likelihood transform of `plot_likelihood_depth`
(graphics/uq/depth.py lines 96-97) applied to the flattened misfit surface:
`ds.values = np.exp(-ds.values/(2.*sigma**2))` followed by
`ds.values /= ds.values.sum()`. -/
noncomputable def likSurface (sigma : ℝ) (vals : List ℝ) : List ℝ :=
  let e := vals.map (fun m => Real.exp (-m / (2 * sigma ^ 2)))
  e.map (fun x => x / e.sum)

/-- Embeds the sigma handling of `plot_likelihood_depth` plus the surface transform:
`assert sigma is not None` raises `AssertionError` when sigma is absent,
otherwise the misfit surface is transformed pointwise and renormalized. -/
noncomputable def likTransform (sigma : Option ℝ) (vals : List ℝ) :
    Except PyErr (List ℝ) :=
  match sigma with
  | none => Except.error PyErr.assertionError
  | some s => Except.ok (likSurface s vals)

/-
  Concrete fixtures used by several theorems and witnesses below.
-/

/-- A stand-in for `gps2dist_azimuth` returning zero distance and azimuth. -/
def gZero : ℚ → ℚ → ℚ → ℚ → ℚ × ℚ := fun _ _ _ _ => (0, 0)

/-- A single-trace stream with the given weight and samples and no
station/origin metadata (tags already initialised). -/
def bareStream (w : Option ℚ) (d : List ℚ) : PyStream :=
  ⟨[⟨⟨"AK", "STA", ""⟩, w, d⟩], none, none, none, some [], none, none⟩

/-- A station fixture at coordinates (0, 0). -/
def st0 : Station := ⟨"N", "S", "L", 0, 0⟩

/-- An origin fixture at coordinates (0, 0). -/
def o0 : Origin := ⟨0, 0, 0⟩

/-- A fully normalised stream fixture: `normStream gZero r0 = Except.ok r0`. -/
def r0 : PyStream :=
  ⟨[], some st0, some o0, some "N.S.L", some [], some 0, some 0⟩

/-- C1.  The claim says `Dataset.max()` returns the maximum absolute sample
amplitude over all weighted traces, and the docstring of `Dataset.max`
promises the same ("Returns maximum absolute amplitude over all traces");
but the loop compares the signed `trace.data.max()` against the running
accumulator before storing `abs(trace.data).max()`, so an all-negative
trace whose signed maximum does not exceed the accumulator is skipped even
though its absolute amplitude is the true maximum.  On the dataset of two
weight-1 single-trace streams with samples `[5]` and `[-100]`, the code
returns 5 while the stated maximum absolute amplitude is 100. -/
theorem C1_datasetMax_sign_bug :
    datasetMax ⟨none, [bareStream (some 1) [5], bareStream (some 1) [-100]]⟩
        = Except.ok ((5 : ℚ) : WithBot ℚ) ∧
      maxAbsSpec ⟨none, [bareStream (some 1) [5], bareStream (some 1) [-100]]⟩
        = ((100 : ℚ) : WithBot ℚ) := by
  decide

/-- C2 counterexample.  The claim says `Dataset.append` fails with
`TypeError` on a non-record argument; the guard is an `assert` statement,
so the failure is an `AssertionError` (its `ValueError(...)` operand is only
the assertion message), not a `TypeError`. -/
theorem C2_append_counterexample :
    appendObj gZero ⟨none, []⟩ PyObj.notStream
        = Except.error PyErr.assertionError ∧
      PyErr.assertionError ≠ PyErr.typeError := by
  decide

/-- C2 (amended).  For every argument that is not record-shaped,
`Dataset.append` fails with `AssertionError` (raised by the
`assert issubclass(type(stream), Stream)` guard before the list is touched),
and the Dataset is left unchanged by the failed call. -/
theorem C2_append_assertionError (g : ℚ → ℚ → ℚ → ℚ → ℚ × ℚ)
    (ds : PyDataset) :
    appendObj g ds PyObj.notStream = Except.error PyErr.assertionError :=
  rfl

/-- C9.  Appending an empty stream that lacks a `station` attribute raises
an uncaught `IndexError` from the identifier fallback (the bare `except:`
block reads `stream[0].stats`), and appending any non-empty stream whose
first trace carries network/station/location stats succeeds — assigning the
identifier from those stats — even when both `station` and `origin`
metadata are absent. -/
theorem C9_append_fallback :
    (∀ (g : ℚ → ℚ → ℚ → ℚ → ℚ × ℚ) (ds : PyDataset) (s : PyStream),
      s.station = none → s.traces = [] →
      appendObj g ds (PyObj.stream s) = Except.error PyErr.indexError) ∧
    (∀ (g : ℚ → ℚ → ℚ → ℚ → ℚ × ℚ) (ds : PyDataset) (s : PyStream)
        (t : PyTrace) (ts : List PyTrace),
      s.station = none → s.traces = t :: ts →
      appendObj g ds (PyObj.stream s) = Except.ok { ds with
        streams := ds.streams ++ [{ s with
          id := some (joinId t.stats.network t.stats.station
            t.stats.location)
          tags := some (s.tags.getD []) }] }) := by
  constructor
  · intro g ds s hst htr
    simp [appendObj, appendStream, normStream, hst, htr]
  · intro g ds s t ts hst htr
    simp [appendObj, appendStream, normStream, hst, htr]

/-- Witness for C9 at concrete inputs. -/
theorem C9_append_fallback_witness :
    appendObj gZero ⟨none, []⟩
        (PyObj.stream ⟨[], none, none, none, none, none, none⟩)
        = Except.error PyErr.indexError ∧
      appendObj gZero ⟨none, []⟩
        (PyObj.stream
          ⟨[⟨⟨"AK", "STA", ""⟩, none, []⟩], none, none, none, none, none,
            none⟩)
        = Except.ok ⟨none,
            [⟨[⟨⟨"AK", "STA", ""⟩, none, []⟩], none, none, some "AK.STA.",
              some [], none, none⟩]⟩ := by
  exact ⟨C9_append_fallback.1 gZero ⟨none, []⟩ _ rfl rfl,
    C9_append_fallback.2 gZero ⟨none, []⟩ _ ⟨⟨"AK", "STA", ""⟩, none, []⟩ []
      rfl rfl⟩

/-- On a stream whose tag list already contains `t`, the `tag_add` body
leaves the stream untouched. -/
lemma tagAddStream_mem {t : String} {s : PyStream} {tg : List String}
    (htags : s.tags = some tg) (hmem : t ∈ tg) :
    tagAddStream t s = Except.ok s := by
  simp [tagAddStream, htags, hmem]

/-- A successful `tag_add` body is a fixed point: running it again on its
output changes nothing. -/
lemma tagAddStream_fix {t : String} {s s2 : PyStream}
    (h : tagAddStream t s = Except.ok s2) :
    tagAddStream t s2 = Except.ok s2 := by
  cases htags : s.tags with
  | none => simp [tagAddStream, htags] at h
  | some tg =>
    by_cases hmem : t ∈ tg
    · simp [tagAddStream, htags, hmem] at h
      subst h
      exact tagAddStream_mem htags hmem
    · simp [tagAddStream, htags, hmem] at h
      subst h
      exact tagAddStream_mem rfl (by simp)

/-- Streams with a tag list always pass the `tag_add` loop, and the result
is a fixed point of the loop. -/
lemma tagAddStreams_fix {t : String} :
    ∀ {l : List PyStream}, (∀ r ∈ l, r.tags.isSome) →
    ∃ l2, tagAddStreams t l = Except.ok l2 ∧
      tagAddStreams t l2 = Except.ok l2 := by
  intro l
  induction l with
  | nil => intro _; exact ⟨[], rfl, rfl⟩
  | cons s ss ih =>
    intro h
    obtain ⟨tg, htg⟩ := Option.isSome_iff_exists.mp (h s (by simp))
    have hs : ∃ s2, tagAddStream t s = Except.ok s2 := by
      by_cases hmem : t ∈ tg
      · exact ⟨s, by simp [tagAddStream, htg, hmem]⟩
      · exact ⟨{ s with tags := some (tg ++ [t]) },
          by simp [tagAddStream, htg, hmem]⟩
    obtain ⟨s2, hs2⟩ := hs
    obtain ⟨ss2, hss2, hfix⟩ := ih (fun r hr => h r (by simp [hr]))
    refine ⟨s2 :: ss2, ?_, ?_⟩
    · simp [tagAddStreams, hs2, hss2]
    · simp [tagAddStreams, tagAddStream_fix hs2, hfix]

/-- C8.  `Dataset.tag_add(tag)` fails with `TypeError` whenever `tag` is not
a string, and for every string tag it appends the tag to each record's tag
list only when not already present, so a second identical call returns the
dataset unchanged (idempotent). -/
theorem C8_tagAdd_typeError_and_idempotent (ds : PyDataset) :
    (∀ n : ℤ, tagAdd ds (PyVal.int n) = Except.error PyErr.typeError) ∧
    (∀ t : String, (∀ r ∈ ds.streams, r.tags.isSome) →
      ∃ d2, tagAdd ds (PyVal.str t) = Except.ok d2 ∧
        tagAdd d2 (PyVal.str t) = Except.ok d2) := by
  constructor
  · intro n; rfl
  · intro t h
    obtain ⟨l2, hl2, hfix⟩ := tagAddStreams_fix (t := t) h
    exact ⟨{ ds with streams := l2 }, by simp [tagAdd, hl2],
      by simp [tagAdd, hfix]⟩

/-- Witness for C8: a one-record dataset with an initialised tag list. -/
theorem C8_tagAdd_witness :
    (tagAdd ⟨none, [bareStream none []]⟩ (PyVal.int 3)
        = Except.error PyErr.typeError) ∧
      ∃ d2, tagAdd ⟨none, [bareStream none []]⟩ (PyVal.str "velocity")
          = Except.ok d2 ∧
        tagAdd d2 (PyVal.str "velocity") = Except.ok d2 :=
  ⟨(C8_tagAdd_typeError_and_idempotent ⟨none, [bareStream none []]⟩).1 3,
    (C8_tagAdd_typeError_and_idempotent ⟨none, [bareStream none []]⟩).2
      "velocity" (by decide)⟩

/-- Re-running `Dataset.append`'s normalisation on an already-appended
stream reproduces it unchanged: the identifier is recomputed identically,
the tag list is already initialised, and the distance/azimuth recomputation
yields the same values. -/
lemma normStream_fix {g : ℚ → ℚ → ℚ → ℚ → ℚ × ℚ} {s t : PyStream}
    (h : normStream g s = Except.ok t) : normStream g t = Except.ok t := by
  cases hst : s.station with
  | some st =>
    cases hor : s.origin with
    | some o =>
      simp [normStream, hst, hor] at h
      subst h
      simp [normStream, hst, hor]
    | none =>
      simp [normStream, hst, hor] at h
      subst h
      simp [normStream, hst, hor]
  | none =>
    cases htr : s.traces with
    | nil => simp [normStream, hst, htr] at h
    | cons tr trs =>
      simp [normStream, hst, htr] at h
      subst h
      simp [normStream, hst, htr]

/-- A list of already-normalised streams passes the `Dataset` constructor
unchanged. -/
lemma mkStreams_fix {g : ℚ → ℚ → ℚ → ℚ → ℚ × ℚ} :
    ∀ {l : List PyStream}, (∀ r ∈ l, normStream g r = Except.ok r) →
    mkStreams g l = Except.ok l := by
  intro l
  induction l with
  | nil => intro _; rfl
  | cons s ss ih =>
    intro h
    have hs := h s (by simp)
    have hss := ih (fun r hr => h r (by simp [hr]))
    simp [mkStreams, hs, hss]

/-- With the needed attributes present, the fallible Python `filter`
coincides with the pure list filter (in particular it preserves order). -/
lemma filterE_eq_filter {p : PyStream → Except PyErr Bool}
    {q : PyStream → Bool} :
    ∀ {l : List PyStream}, (∀ r ∈ l, p r = Except.ok (q r)) →
    filterE p l = Except.ok (l.filter q) := by
  intro l
  induction l with
  | nil => intro _; rfl
  | cons s ss ih =>
    intro h
    have hs := h s (by simp)
    have hss := ih (fun r hr => h r (by simp [hr]))
    cases hq : q s <;>
      simp [filterE, hs, hss, hq, List.filter_cons]

/-- C3 counterexample.  The claim says `Dataset.select` with neither
criterion fails with `ValueError`; the code executes
`raise Exception("No selection criteria given ...")`, whose exception class
is the bare `Exception`, not `ValueError`. -/
theorem C3_select_counterexample :
    selectDS gZero ⟨none, []⟩ none none = Except.error PyErr.exception ∧
      PyErr.exception ≠ PyErr.valueError := by
  decide

/-- C3 (amended).  `Dataset.select` with neither criterion raises the bare
`Exception` (not `ValueError`); with at least one criterion it returns a new
Dataset (with the same identifier) containing exactly the records equal to
the given origin and/or station — both matching when both are given — in
original order.  Stated for datasets whose records have been appended
(normalised) and carry the attributes the selection reads; Python's
short-circuit `and` only reads `origin` on records whose station already
matches. -/
theorem C3_select_exception_and_filter (g : ℚ → ℚ → ℚ → ℚ → ℚ × ℚ)
    (ds : PyDataset) (hnorm : ∀ r ∈ ds.streams, normStream g r = Except.ok r) :
    (selectDS g ds none none = Except.error PyErr.exception) ∧
    (∀ o : Origin, (∀ r ∈ ds.streams, r.origin.isSome) →
      selectDS g ds (some o) none = Except.ok ⟨ds.id,
        ds.streams.filter (fun r => decide (r.origin = some o))⟩) ∧
    (∀ st : Station, (∀ r ∈ ds.streams, r.station.isSome) →
      selectDS g ds none (some st) = Except.ok ⟨ds.id,
        ds.streams.filter (fun r => decide (r.station = some st))⟩) ∧
    (∀ (o : Origin) (st : Station), (∀ r ∈ ds.streams, r.station.isSome) →
      (∀ r ∈ ds.streams, r.station = some st → r.origin.isSome) →
      selectDS g ds (some o) (some st) = Except.ok ⟨ds.id,
        ds.streams.filter (fun r =>
          decide (r.station = some st) && decide (r.origin = some o))⟩) := by
  refine ⟨rfl, ?_, ?_, ?_⟩
  · intro o h
    have hf : filterE (selPredOrigin o) ds.streams =
        Except.ok (ds.streams.filter (fun r => decide (r.origin = some o))) := by
      refine filterE_eq_filter ?_
      intro r hr
      obtain ⟨b, hb⟩ := Option.isSome_iff_exists.mp (h r hr)
      simp [selPredOrigin, getOriginAttr, hb]
    have hmk := mkStreams_fix (g := g)
      (l := ds.streams.filter (fun r => decide (r.origin = some o)))
      (fun r hr => hnorm r (List.mem_of_mem_filter hr))
    simp [selectDS, hf, mkDataset, hmk]
  · intro st h
    have hf : filterE (selPredStation st) ds.streams =
        Except.ok (ds.streams.filter (fun r => decide (r.station = some st))) := by
      refine filterE_eq_filter ?_
      intro r hr
      obtain ⟨b, hb⟩ := Option.isSome_iff_exists.mp (h r hr)
      simp [selPredStation, getStationAttr, hb]
    have hmk := mkStreams_fix (g := g)
      (l := ds.streams.filter (fun r => decide (r.station = some st)))
      (fun r hr => hnorm r (List.mem_of_mem_filter hr))
    simp [selectDS, hf, mkDataset, hmk]
  · intro o st hstat horig
    have hf : filterE (selPredBoth o st) ds.streams =
        Except.ok (ds.streams.filter (fun r =>
          decide (r.station = some st) && decide (r.origin = some o))) := by
      refine filterE_eq_filter ?_
      intro r hr
      obtain ⟨a, ha⟩ := Option.isSome_iff_exists.mp (hstat r hr)
      by_cases heq : a = st
      · obtain ⟨b, hb⟩ := Option.isSome_iff_exists.mp
          (horig r hr (by simp [ha, heq]))
        simp [selPredBoth, getStationAttr, getOriginAttr, ha, hb, heq]
      · have hne : r.station ≠ some st := by simp [ha, heq]
        simp [selPredBoth, getStationAttr, ha, heq, hne]
    have hmk := mkStreams_fix (g := g)
      (l := ds.streams.filter (fun r =>
        decide (r.station = some st) && decide (r.origin = some o)))
      (fun r hr => hnorm r (List.mem_of_mem_filter hr))
    simp [selectDS, hf, mkDataset, hmk]

/-- Witness for C3 at a concrete one-record dataset. -/
theorem C3_select_witness :
    (selectDS gZero ⟨some "ev", [r0]⟩ none none
        = Except.error PyErr.exception) ∧
      selectDS gZero ⟨some "ev", [r0]⟩ (some o0) none
        = Except.ok ⟨some "ev", [r0]⟩ ∧
      selectDS gZero ⟨some "ev", [r0]⟩ none (some st0)
        = Except.ok ⟨some "ev", [r0]⟩ ∧
      selectDS gZero ⟨some "ev", [r0]⟩ (some o0) (some st0)
        = Except.ok ⟨some "ev", [r0]⟩ := by
  have h := C3_select_exception_and_filter gZero ⟨some "ev", [r0]⟩
    (by decide)
  refine ⟨h.1, ?_, ?_, ?_⟩
  · have := h.2.1 o0 (by decide)
    simpa using this
  · have := h.2.2.1 st0 (by decide)
    simpa using this
  · have := h.2.2.2 o0 st0 (by decide) (by decide)
    simpa using this

/-- When index `i` is in range for every sequence, the per-record argument
list is the `i`-th item of each sequence. -/
lemma argsAt_ok {α : Type} [Inhabited α] {i : ℕ} :
    ∀ {seqs : List (List α)}, (∀ l ∈ seqs, i < l.length) →
    argsAt i seqs = Except.ok (seqs.map (fun l => l.getD i default)) := by
  intro seqs
  induction seqs with
  | nil => intro _; rfl
  | cons l ls ih =>
    intro h
    have hl := h l (by simp)
    have hget : seqGet l i = Except.ok (l.getD i default) := by
      simp [seqGet, List.getD_eq_getElem?_getD, List.get?_eq_getElem?,
        List.getElem?_eq_getElem hl]
    have hls := ih (fun m hm => h m (by simp [hm]))
    simp [argsAt, hget, hls]

/-- Closed form of the `Dataset.map` accumulation loop, for sequences long
enough to cover every record. -/
lemma mapLoop_closed {α : Type} [Inhabited α]
    {f : PyStream → List α → PyStream} {seqs : List (List α)} :
    ∀ (ss : List PyStream) (i : ℕ),
    (∀ l ∈ seqs, i + ss.length ≤ l.length) →
    mapLoop f seqs i ss = Except.ok
      ((List.range ss.length).map (fun k =>
        f (ss.getD k default) (seqs.map (fun l => l.getD (i + k) default)))) := by
  intro ss
  induction ss with
  | nil => intro i _; rfl
  | cons s ss ih =>
    intro i h
    have hargs : argsAt i seqs =
        Except.ok (seqs.map (fun l => l.getD i default)) := by
      refine argsAt_ok ?_
      intro l hl
      have hll := h l hl
      simp only [List.length_cons] at hll
      omega
    have hrest := ih (i + 1) (by
      intro l hl
      have hll := h l hl
      simp only [List.length_cons] at hll
      omega)
    simp only [mapLoop, hargs, hrest, List.length_cons,
      List.range_succ_eq_map, List.map_cons, List.map_map,
      List.getD_cons_zero, Nat.add_zero]
    congr 2
    refine List.map_congr_left ?_
    intro k hk
    have harith : i + 1 + k = i + (k + 1) := by omega
    simp [Function.comp, List.getD_cons_succ, harith]

/-- C4.  For a Dataset of `N` records and parallel sequences each of length
at least `N`, `Dataset.map(f, *sequences)` returns a Dataset of length `N`
whose element `i` is `f` applied to record `i` and the `i`-th item of each
sequence, in original record order, carrying the source Dataset's
identifier.  `f` is assumed to produce record-shaped outputs that the
constructor's re-append normalisation leaves unchanged (the constructor
re-runs `append` on every produced record). -/
theorem C4_map_pointwise {α : Type} [Inhabited α]
    (g : ℚ → ℚ → ℚ → ℚ → ℚ × ℚ) (f : PyStream → List α → PyStream)
    (seqs : List (List α)) (ds : PyDataset)
    (hlen : ∀ l ∈ seqs, ds.streams.length ≤ l.length)
    (hf : ∀ s a, normStream g (f s a) = Except.ok (f s a)) :
    ∃ out, mapDS g f seqs ds = Except.ok out ∧
      out.id = ds.id ∧
      out.streams.length = ds.streams.length ∧
      ∀ i, i < ds.streams.length →
        out.streams.getD i default =
          f (ds.streams.getD i default)
            (seqs.map (fun l => l.getD i default)) := by
  have hloop := @mapLoop_closed α _ f seqs ds.streams 0
    (by intro l hl; simpa using hlen l hl)
  simp only [Nat.zero_add] at hloop
  have hmk : mkStreams g ((List.range ds.streams.length).map (fun k =>
        f (ds.streams.getD k default)
          (seqs.map (fun l => l.getD k default)))) =
      Except.ok ((List.range ds.streams.length).map (fun k =>
        f (ds.streams.getD k default)
          (seqs.map (fun l => l.getD k default)))) := by
    refine mkStreams_fix ?_
    intro r hr
    obtain ⟨k, _, hk⟩ := List.mem_map.mp hr
    rw [← hk]
    exact hf _ _
  refine ⟨⟨ds.id, (List.range ds.streams.length).map (fun k =>
    f (ds.streams.getD k default)
      (seqs.map (fun l => l.getD k default)))⟩, ?_, rfl, ?_, ?_⟩
  · simp only [mapDS, hloop, mkDataset, hmk]
  · simp
  · intro i hi
    show ((List.range ds.streams.length).map (fun k =>
      f (ds.streams.getD k default)
        (seqs.map (fun l => l.getD k default)))).getD i default = _
    rw [List.getD_eq_getElem?_getD, List.getElem?_map]
    simp [List.getElem?_range hi]

/-- Witness for C4: one record, one sequence, a constant record-shaped
function. -/
theorem C4_map_witness :
    ∃ out, mapDS gZero (fun (_ : PyStream) (_ : List ℚ) => r0) [[(7 : ℚ)]]
        ⟨some "ev", [r0]⟩ = Except.ok out ∧
      out.id = (⟨some "ev", [r0]⟩ : PyDataset).id ∧
      out.streams.length = (⟨some "ev", [r0]⟩ : PyDataset).streams.length ∧
      ∀ i, i < (⟨some "ev", [r0]⟩ : PyDataset).streams.length →
        out.streams.getD i default =
          (fun (_ : PyStream) (_ : List ℚ) => r0)
            ((⟨some "ev", [r0]⟩ : PyDataset).streams.getD i default)
            ([[(7 : ℚ)]].map (fun l => l.getD i default)) := by
  exact C4_map_pointwise gZero (fun (_ : PyStream) (_ : List ℚ) => r0)
    [[(7 : ℚ)]] ⟨some "ev", [r0]⟩ (by decide)
    (fun _ _ => by show normStream gZero r0 = Except.ok r0; decide)

/-- Inserting into a list sorted for a total boolean comparison keeps it
sorted. -/
lemma chain'_insertLe {α : Type} {le : α → α → Bool}
    (htot : ∀ a b, le a b = false → le b a = true) (x : α) :
    ∀ {l : List α}, List.Chain' (fun a b => le a b = true) l →
      List.Chain' (fun a b => le a b = true) (insertLe le x l) := by
  intro l
  induction l with
  | nil => intro _; simp [insertLe]
  | cons y ys ih =>
    intro h
    cases hxy : le x y with
    | true =>
      simp only [insertLe, hxy, if_true]
      exact List.chain'_cons.mpr ⟨hxy, h⟩
    | false =>
      have hyx := htot x y hxy
      simp only [insertLe, hxy, Bool.false_eq_true, if_false]
      have hins := ih h.tail
      cases ys with
      | nil =>
        simp only [insertLe]
        exact List.chain'_cons.mpr ⟨hyx, List.chain'_singleton x⟩
      | cons z zs =>
        cases hxz : le x z with
        | true =>
          have heq : insertLe le x (z :: zs) = x :: z :: zs := by
            simp [insertLe, hxz]
          rw [heq]
          exact List.chain'_cons.mpr ⟨hyx, heq ▸ hins⟩
        | false =>
          have heq : insertLe le x (z :: zs) = z :: insertLe le x zs := by
            simp [insertLe, hxz]
          rw [heq]
          exact List.chain'_cons.mpr
            ⟨(List.chain'_cons.mp h).1, heq ▸ hins⟩

/-- Insertion sort output is sorted (for a total boolean comparison). -/
lemma isort_chain' {α : Type} {le : α → α → Bool}
    (htot : ∀ a b, le a b = false → le b a = true) :
    ∀ l : List α, List.Chain' (fun a b => le a b = true) (isort le l) := by
  intro l
  induction l with
  | nil => simp [isort]
  | cons x xs ih => exact chain'_insertLe htot x ih

/-- A stable sort leaves an already-sorted list unchanged. -/
lemma isort_of_chain' {α : Type} {le : α → α → Bool} :
    ∀ {l : List α}, List.Chain' (fun a b => le a b = true) l →
      isort le l = l := by
  intro l
  induction l with
  | nil => intro _; rfl
  | cons x xs ih =>
    intro h
    have htail : isort le xs = xs := ih h.tail
    cases xs with
    | nil => rfl
    | cons y ys =>
      have hxy := (List.chain'_cons.mp h).1
      show insertLe le x (isort le (y :: ys)) = x :: y :: ys
      rw [htail]
      simp [insertLe, hxy]

/-- Sorting twice is the same as sorting once. -/
lemma isort_idem {α : Type} {le : α → α → Bool}
    (htot : ∀ a b, le a b = false → le b a = true) (l : List α) :
    isort le (isort le l) = isort le l :=
  isort_of_chain' (isort_chain' htot l)

/-- Insertion introduces no new elements. -/
lemma mem_insertLe {α : Type} {le : α → α → Bool} {a x : α} :
    ∀ {l : List α}, a ∈ insertLe le x l → a = x ∨ a ∈ l := by
  intro l
  induction l with
  | nil => intro h; simpa [insertLe] using h
  | cons y ys ih =>
    intro h
    by_cases hxy : le x y = true
    · simp only [insertLe, hxy, if_true] at h
      simpa using h
    · simp only [insertLe, hxy, if_false] at h
      rcases List.mem_cons.mp h with hy | htail
      · exact Or.inr (by simp [hy])
      · rcases ih htail with hx | hmem
        · exact Or.inl hx
        · exact Or.inr (by simp [hmem])

/-- Sorting introduces no new elements. -/
lemma mem_isort {α : Type} {le : α → α → Bool} {a : α} :
    ∀ {l : List α}, a ∈ isort le l → a ∈ l := by
  intro l
  induction l with
  | nil => intro h; simp [isort] at h
  | cons x xs ih =>
    intro h
    rcases mem_insertLe h with hx | hmem
    · simp [hx]
    · exact List.mem_cons_of_mem x (ih hmem)

/-- Totality of the ascending distance comparison. -/
lemma distLe_total : ∀ a b, distLe a b = false → distLe b a = true := by
  intro a b h
  simp only [distLe, decide_eq_false_iff_not] at h
  simpa [distLe] using le_of_not_le h

/-- Totality of the descending distance comparison. -/
lemma distGe_total : ∀ a b, distGe a b = false → distGe b a = true := by
  intro a b h
  simp only [distGe, decide_eq_false_iff_not] at h
  simpa [distGe] using le_of_not_le h

/-- On a dataset whose records all carry a distance, `sort_by_distance`
(in either direction) succeeds, and repeating it reproduces its own
output. -/
lemma sortByDistance_twice (ds : PyDataset) (rev : Bool)
    (h : ∀ r ∈ ds.streams, r.distance_in_m.isSome) :
    ∃ out, sortByDistance ds rev = Except.ok out ∧
      sortByDistance out rev = Except.ok out := by
  have htot : ∀ a b, (if rev then distGe else distLe) a b = false →
      (if rev then distGe else distLe) b a = true := by
    cases rev with
    | true => simpa using distGe_total
    | false => simpa using distLe_total
  have hall : ds.streams.all (fun s => s.distance_in_m.isSome) = true :=
    List.all_eq_true.mpr h
  have hall2 : (isort (if rev then distGe else distLe) ds.streams).all
      (fun s => s.distance_in_m.isSome) = true :=
    List.all_eq_true.mpr (fun r hr => h r (mem_isort hr))
  refine ⟨{ ds with
    streams := isort (if rev then distGe else distLe) ds.streams }, ?_, ?_⟩
  · simp [sortByDistance, hall]
  · simp [sortByDistance, hall2, isort_idem htot]

/-- C5 counterexample.  The claim says applying the reversed sort twice
returns the Dataset to its original record order; on a two-record dataset
with distances 1 and 2 (ascending), the reversed sort gives descending
order and a second reversed sort keeps it, so the original order is not
restored. -/
theorem C5_reverse_twice_counterexample :
    sortByDistance ⟨none,
        [⟨[], none, none, none, some [], some 1, none⟩,
          ⟨[], none, none, none, some [], some 2, none⟩]⟩ true
      = Except.ok ⟨none,
        [⟨[], none, none, none, some [], some 2, none⟩,
          ⟨[], none, none, none, some [], some 1, none⟩]⟩ ∧
    sortByDistance ⟨none,
        [⟨[], none, none, none, some [], some 2, none⟩,
          ⟨[], none, none, none, some [], some 1, none⟩]⟩ true
      = Except.ok ⟨none,
        [⟨[], none, none, none, some [], some 2, none⟩,
          ⟨[], none, none, none, some [], some 1, none⟩]⟩ ∧
    (⟨none, [⟨[], none, none, none, some [], some 2, none⟩,
        ⟨[], none, none, none, some [], some 1, none⟩]⟩ : PyDataset)
      ≠ ⟨none, [⟨[], none, none, none, some [], some 1, none⟩,
        ⟨[], none, none, none, some [], some 2, none⟩]⟩ := by
  decide

/-- C5 (amended).  For datasets whose records all carry a numeric
`distance_in_m`, `sort_by_distance` is idempotent, and the reversed sort is
likewise idempotent: applying it twice yields the same (descending) order
as applying it once — it does not restore the original order. -/
theorem C5_sort_idempotent (ds : PyDataset)
    (h : ∀ r ∈ ds.streams, r.distance_in_m.isSome) :
    (∃ out, sortByDistance ds false = Except.ok out ∧
      sortByDistance out false = Except.ok out) ∧
    (∃ out, sortByDistance ds true = Except.ok out ∧
      sortByDistance out true = Except.ok out) :=
  ⟨sortByDistance_twice ds false h, sortByDistance_twice ds true h⟩

/-- Witness for C5 on a concrete two-record dataset. -/
theorem C5_sort_idempotent_witness :
    (∃ out, sortByDistance ⟨none,
        [⟨[], none, none, none, some [], some 3, none⟩,
          ⟨[], none, none, none, some [], some 2, none⟩]⟩ false
        = Except.ok out ∧
      sortByDistance out false = Except.ok out) ∧
    (∃ out, sortByDistance ⟨none,
        [⟨[], none, none, none, some [], some 3, none⟩,
          ⟨[], none, none, none, some [], some 2, none⟩]⟩ true
        = Except.ok out ∧
      sortByDistance out true = Except.ok out) :=
  C5_sort_idempotent ⟨none,
    [⟨[], none, none, none, some [], some 3, none⟩,
      ⟨[], none, none, none, some [], some 2, none⟩]⟩ (by decide)

/-- Dividing every element of a list by a constant divides its sum. -/
lemma list_sum_map_div (s : ℝ) :
    ∀ l : List ℝ, (l.map (fun x => x / s)).sum = l.sum / s := by
  intro l
  induction l with
  | nil => simp
  | cons x xs ih => simp [ih, add_div]

/-- C6.  On a `DataArray` misfit surface, `plot_likelihood_depth` converts
the surface pointwise via `exp(-misfit/(2*sigma**2))` and renormalises by
the total, so for every nonempty misfit surface and every nonzero
caller-supplied sigma the transformed likelihood surface sums to exactly 1
(the float computation matches to within floating tolerance); with sigma
absent the operation fails (`assert sigma is not None`). -/
theorem C6_likelihood_normalised (vals : List ℝ) (sigma : ℝ)
    (hne : vals ≠ []) (_hs : sigma ≠ 0) :
    likTransform none vals = Except.error PyErr.assertionError ∧
    ∃ out, likTransform (some sigma) vals = Except.ok out ∧ out.sum = 1 := by
  refine ⟨rfl, likSurface sigma vals, rfl, ?_⟩
  have hpos : 0 < (vals.map
      (fun m => Real.exp (-m / (2 * sigma ^ 2)))).sum := by
    refine List.sum_pos _ ?_ ?_
    · intro x hx
      obtain ⟨m, _, hm⟩ := List.mem_map.mp hx
      rw [← hm]
      exact Real.exp_pos _
    · simpa using hne
  show ((vals.map (fun m => Real.exp (-m / (2 * sigma ^ 2)))).map
      (fun x => x / (vals.map
        (fun m => Real.exp (-m / (2 * sigma ^ 2)))).sum)).sum = 1
  rw [list_sum_map_div]
  exact div_self (ne_of_gt hpos)

/-- Witness for C6 at the one-point surface `[0]` with sigma 1. -/
theorem C6_likelihood_normalised_witness :
    likTransform none [(0 : ℝ)] = Except.error PyErr.assertionError ∧
    ∃ out, likTransform (some (1 : ℝ)) [(0 : ℝ)] = Except.ok out ∧
      out.sum = 1 :=
  C6_likelihood_normalised [(0 : ℝ)] 1 (by simp) one_ne_zero

/-- Every enumerated multi-index has one entry per axis. -/
lemma length_mem_indicesOf :
    ∀ {s : List ℕ} {idx : List ℕ}, idx ∈ indicesOf s →
      idx.length = s.length := by
  intro s
  induction s with
  | nil =>
    intro idx h
    simp only [indicesOf, List.mem_singleton] at h
    simp [h]
  | cons n rest ih =>
    intro idx h
    simp only [indicesOf, List.mem_flatten, List.mem_map] at h
    obtain ⟨l, ⟨i, _, hl⟩, hidx⟩ := h
    rw [← hl] at hidx
    obtain ⟨t, ht, hcons⟩ := List.mem_map.mp hidx
    rw [← hcons]
    simp [ih ht]

/-- A shape with only positive axis lengths has at least one multi-index. -/
lemma indicesOf_ne_nil :
    ∀ {s : List ℕ}, (∀ d ∈ s, 0 < d) → indicesOf s ≠ [] := by
  intro s
  induction s with
  | nil => intro _; simp [indicesOf]
  | cons n rest ih =>
    intro h
    obtain ⟨t, ht⟩ := List.exists_mem_of_ne_nil _
      (ih (fun d hd => h d (by simp [hd])))
    have hn : 0 < n := h n (by simp)
    have hmem : (0 :: t) ∈ indicesOf (n :: rest) := by
      simp only [indicesOf, List.mem_flatten, List.mem_map]
      exact ⟨(indicesOf rest).map (fun u => 0 :: u),
        ⟨0, List.mem_range.mpr hn, rfl⟩, List.mem_map.mpr ⟨t, ht, rfl⟩⟩
    exact List.ne_nil_of_mem hmem

/-- The reduction loop succeeds with pointwise values when every step
does. -/
lemma exMapP_ok {f : ℕ → Except PyErr (ℚ × ℕ)} {gf : ℕ → ℚ × ℕ} :
    ∀ {l : List ℕ}, (∀ i ∈ l, f i = Except.ok (gf i)) →
      exMapP f l = Except.ok (l.map gf) := by
  intro l
  induction l with
  | nil => intro _; rfl
  | cons i is ih =>
    intro h
    have hi := h i (by simp)
    have his := ih (fun j hj => h j (by simp [hj]))
    simp [exMapP, hi, his]

/-- On a 7-axis array, slicing the held-out axis succeeds and flattens to
exactly the slice values over the six remaining axes. -/
lemma sliceAx6_flatten {A : NDArray} (h7 : A.shape.length = 7) {i : ℕ}
    (hi : i < A.shape.getD 6 0) :
    sliceAx6 A i = Except.ok
      ⟨A.shape.take 6 ++ A.shape.drop 7,
        fun idx => A.val (idx.take 6 ++ i :: idx.drop 6)⟩ ∧
    flattenND ⟨A.shape.take 6 ++ A.shape.drop 7,
        fun idx => A.val (idx.take 6 ++ i :: idx.drop 6)⟩
      = specSliceVals A i := by
  have hlt : ¬ A.shape.length < 7 := by omega
  have hdrop : A.shape.drop 7 = [] := by
    apply List.drop_eq_nil_of_le
    omega
  constructor
  · unfold sliceAx6
    rw [if_neg hlt, if_pos hi]
  · show (indicesOf (A.shape.take 6 ++ A.shape.drop 7)).map
        (fun idx => A.val (idx.take 6 ++ i :: idx.drop 6))
      = (indicesOf (A.shape.take 6)).map (fun j => A.val (j ++ [i]))
    rw [hdrop, List.append_nil]
    refine List.map_congr_left ?_
    intro idx hidx
    have hlen : idx.length = 6 := by
      have := length_mem_indicesOf hidx
      rwa [List.length_take, h7] at this
    have htake : idx.take 6 = idx := List.take_of_length_le (by omega)
    have hdrop6 : idx.drop 6 = [] := List.drop_eq_nil_of_le (by omega)
    rw [htake, hdrop6]

/-- The slice values of a positive-dimension 7-axis array are nonempty. -/
lemma specSliceVals_ne_nil {A : NDArray}
    (hpos : ∀ d ∈ A.shape, 0 < d) (i : ℕ) : specSliceVals A i ≠ [] := by
  intro h
  apply indicesOf_ne_nil
    (fun d hd => hpos d (List.take_subset 6 A.shape hd))
  exact List.map_eq_nil_iff.mp h

/-- On a 7-axis array, the last axis is axis 6. -/
lemma getLast?_len7 {A : NDArray} (h7 : A.shape.length = 7) :
    A.shape.getLast? = some (A.shape.getD 6 0) := by
  have h6 : 6 < A.shape.length := by omega
  rw [List.getLast?_eq_getElem?, h7]
  simp [List.getElem?_eq_getElem h6, List.getD_eq_getElem?_getD]

/-- One step of the `_min_dataarray` loop on a 7-axis positive-dimension
surface. -/
lemma minStep_eq {A : NDArray} (h7 : A.shape.length = 7)
    (hpos : ∀ d ∈ A.shape, 0 < d) {i : ℕ} (hi : i < A.shape.getD 6 0) :
    (match sliceAx6 A i with
      | Except.error e => Except.error e
      | Except.ok s => arrMinPair s) =
    Except.ok (minOfList (specSliceVals A i),
      firstIdxOf (minOfList (specSliceVals A i)) (specSliceVals A i)) := by
  obtain ⟨hslice, hflat⟩ := sliceAx6_flatten h7 hi
  rw [hslice]
  obtain ⟨x, xs, hxs⟩ :=
    List.exists_cons_of_ne_nil (specSliceVals_ne_nil hpos i)
  simp only [arrMinPair, hflat, hxs, minOfList]

/-- One step of the `_max_dataarray` loop on a 7-axis positive-dimension
surface. -/
lemma maxStep_eq {A : NDArray} (h7 : A.shape.length = 7)
    (hpos : ∀ d ∈ A.shape, 0 < d) {i : ℕ} (hi : i < A.shape.getD 6 0) :
    (match sliceAx6 A i with
      | Except.error e => Except.error e
      | Except.ok s => arrMaxPair s) =
    Except.ok (maxOfList (specSliceVals A i),
      firstIdxOf (maxOfList (specSliceVals A i)) (specSliceVals A i)) := by
  obtain ⟨hslice, hflat⟩ := sliceAx6_flatten h7 hi
  rw [hslice]
  obtain ⟨x, xs, hxs⟩ :=
    List.exists_cons_of_ne_nil (specSliceVals_ne_nil hpos i)
  simp only [arrMaxPair, hflat, hxs, maxOfList]

/-- C7.  For every score surface held as a 7-axis array (with nonempty
axes), `_min_dataarray` produces, for each index `i` along the held-out
last axis in order, the minimum of the slice over all remaining axes
together with the flat (row-major) index of its first occurrence in that
slice, and `_max_dataarray` does the same with maximum and argmax. -/
theorem C7_min_max_projection (A : NDArray) (h7 : A.shape.length = 7)
    (hpos : ∀ d ∈ A.shape, 0 < d) :
    minDataarray A = Except.ok (minProjSpec A) ∧
    maxDataarray A = Except.ok (maxProjSpec A) := by
  have hlast := getLast?_len7 h7
  constructor
  · show minDataarray A = _
    simp only [minDataarray, hlast]
    have := @exMapP_ok
      (fun i =>
        match sliceAx6 A i with
        | Except.error e => Except.error e
        | Except.ok s => arrMinPair s)
      (fun i => (minOfList (specSliceVals A i),
        firstIdxOf (minOfList (specSliceVals A i)) (specSliceVals A i)))
      (List.range (A.shape.getD 6 0))
      (fun i hi => minStep_eq h7 hpos (List.mem_range.mp hi))
    rw [this]
    simp only [minProjSpec, hlast, Option.getD_some]
  · show maxDataarray A = _
    simp only [maxDataarray, hlast]
    have := @exMapP_ok
      (fun i =>
        match sliceAx6 A i with
        | Except.error e => Except.error e
        | Except.ok s => arrMaxPair s)
      (fun i => (maxOfList (specSliceVals A i),
        firstIdxOf (maxOfList (specSliceVals A i)) (specSliceVals A i)))
      (List.range (A.shape.getD 6 0))
      (fun i hi => maxStep_eq h7 hpos (List.mem_range.mp hi))
    rw [this]
    simp only [maxProjSpec, hlast, Option.getD_some]

/-- Witness for C7 on a concrete 7-axis surface of shape
`[1,1,1,1,1,2,2]`. -/
theorem C7_min_max_projection_witness :
    minDataarray ⟨[1, 1, 1, 1, 1, 2, 2],
        fun idx => (idx.getD 5 0 : ℚ) * 10 + (idx.getD 6 0 : ℚ)⟩
      = Except.ok (minProjSpec ⟨[1, 1, 1, 1, 1, 2, 2],
        fun idx => (idx.getD 5 0 : ℚ) * 10 + (idx.getD 6 0 : ℚ)⟩) ∧
    maxDataarray ⟨[1, 1, 1, 1, 1, 2, 2],
        fun idx => (idx.getD 5 0 : ℚ) * 10 + (idx.getD 6 0 : ℚ)⟩
      = Except.ok (maxProjSpec ⟨[1, 1, 1, 1, 1, 2, 2],
        fun idx => (idx.getD 5 0 : ℚ) * 10 + (idx.getD 6 0 : ℚ)⟩) :=
  C7_min_max_projection ⟨[1, 1, 1, 1, 1, 2, 2],
      fun idx => (idx.getD 5 0 : ℚ) * 10 + (idx.getD 6 0 : ℚ)⟩
    (by decide) (by decide)

/-- C10 counterexample.  The claim says the depth reduction fails on every
`DataArray` whose number of axes differs from 7; on the 8-axis surface of
shape `[1,1,1,1,1,1,1,1]` the seven indexers are accepted (the integer
consumes axis 6 and axis 7 survives into the slice), so `_min_dataarray`
succeeds and returns a profile instead of failing. -/
theorem C10_eight_axes_counterexample :
    minDataarray ⟨[1, 1, 1, 1, 1, 1, 1, 1], fun _ => 3⟩
        = Except.ok [(3, 0)] ∧
      (⟨[1, 1, 1, 1, 1, 1, 1, 1], fun _ => 3⟩ : NDArray).shape.length ≠ 7 := by
  constructor
  · rfl
  · decide

/-- C10 (amended).  The depth reductions index the score surface with six
leading full slices plus the held-out axis, so on every `DataArray` with
fewer than 7 axes (and a nonzero last-axis length) the first loop iteration
raises `IndexError` ("too many indices") rather than producing a profile;
surfaces with more than 7 axes are not rejected — the reduction can succeed
there, slicing axis 6 rather than the last axis. -/
theorem C10_fewer_axes_fail (A : NDArray) (n : ℕ)
    (hlt : A.shape.length < 7) (hlast : A.shape.getLast? = some n)
    (hn : 0 < n) :
    minDataarray A = Except.error PyErr.indexError ∧
    maxDataarray A = Except.error PyErr.indexError := by
  have hslice : sliceAx6 A 0 = Except.error PyErr.indexError := by
    unfold sliceAx6
    rw [if_pos hlt]
  obtain ⟨m, hm⟩ := Nat.exists_eq_succ_of_ne_zero (Nat.pos_iff_ne_zero.mp hn)
  have hrange : List.range n = 0 :: (List.range m).map Nat.succ := by
    rw [hm, List.range_succ_eq_map]
  constructor
  · simp only [minDataarray, hlast, hrange, exMapP, hslice]
  · simp only [maxDataarray, hlast, hrange, exMapP, hslice]

/-- Witness for C10 on a concrete 1-axis surface. -/
theorem C10_fewer_axes_fail_witness :
    minDataarray ⟨[2], fun _ => 0⟩ = Except.error PyErr.indexError ∧
      maxDataarray ⟨[2], fun _ => 0⟩ = Except.error PyErr.indexError :=
  C10_fewer_axes_fail ⟨[2], fun _ => 0⟩ 2 (by decide) rfl (by decide)

end Mtuq
